import Mathlib

/-!
# ssh-tunnel: a shallow embedding of `pkg/sshtunnel` and `internal/cmd`

The Go package keeps one transport handle per tunnel, dials it through a chain
of hops, supervises it with a keepalive loop and relays connections accepted by
a forward or a reverse engine.  Network and file-system effects are supplied by
an environment (oracle functions indexed by call number), and every effect the
code performs on a handle, listener or connection is recorded in an explicit
world state.
-/

namespace SshTunnelModel

/-! ## Strings and the process environment -/

/-- Go `strings.Contains(s, substr)`: `substr` occurs as a contiguous run of `s`. -/
def stringsContains (s substr : String) : Bool :=
  decide (substr.data <:+: s.data)

/-- The two variables read through `os.Getenv`. -/
structure OsEnv where
  HOME : String
  USER : String
deriving DecidableEq, Repr

/-! ## `SshConfig` -/

/-- Go `type SshConfig struct`. -/
structure SshConfig where
  HostName : String
  User : String
  IdentityFile : String
deriving DecidableEq, Repr

/-- Go `func (sc *SshConfig) SetDefaults()`: the three assignments in source order. -/
def SshConfig.SetDefaults (os : OsEnv) (sc : SshConfig) : SshConfig :=
  let sc1 : SshConfig :=
    if sc.IdentityFile = "" then { sc with IdentityFile := os.HOME ++ "/.ssh/id_rsa" } else sc
  let sc2 : SshConfig :=
    if !stringsContains sc1.HostName ":" then { sc1 with HostName := sc1.HostName ++ ":22" } else sc1
  let sc3 : SshConfig :=
    if sc2.User = "" then { sc2 with User := os.USER } else sc2
  sc3

/-! ## Transport handles, errors and the network oracle -/

/-- A transport handle (Go `*ssh.Client`), named by a number. -/
abbrev Handle := Nat

/-- A Go `error` value, named by its message. -/
abbrev Err := String

/-- What the outside world answers to the calls made by `dial`.  Every oracle is indexed by
the number `n` of the `dial` call and by the hop index `i` inside that call. -/
structure NetEnv where
  /-- Go `sc.ParseClientConfig()`: `some e` when the key cannot be loaded or parsed. -/
  parseClientConfig : Nat → Nat → Option Err
  /-- Go `ssh.Dial("tcp", sc.HostName, clientConf)`: network dial and handshake of the first hop. -/
  sshDial : Nat → Nat → Except Err Handle
  /-- Go `client.Dial("tcp", sc.HostName)`: `some e` when the channel cannot be opened. -/
  clientDial : Nat → Nat → Option Err
  /-- Go `ssh.NewClientConn` followed by `ssh.NewClient`: the handshake over the channel. -/
  newClientConn : Nat → Nat → Except Err Handle

/-- Everything one run of `dial` does, in the order it does it. -/
structure DialRun where
  /-- The returned pair `(client, err)`. -/
  result : Except Err (Option Handle)
  /-- Handles opened by this run, oldest first. -/
  opened : List Handle
  /-- Handles on which this run called `Close`. -/
  closed : List Handle
  /-- Host names appended to `st.dialChain`. -/
  chain : List String
  /-- Indices of the hops for which any work was started. -/
  attempts : List Nat

/-- A run that stops at hop `i` with error `e`: `return nil, err`. -/
def DialRun.abort (i : Nat) (e : Err) : DialRun :=
  { result := .error e, opened := [], closed := [], chain := [], attempts := [i] }

/-- Hop `i` succeeded with handle `h` for host `host`; `r` is the rest of the run. -/
def DialRun.after (i : Nat) (h : Handle) (host : String) (r : DialRun) : DialRun :=
  { r with opened := h :: r.opened, chain := host :: r.chain, attempts := i :: r.attempts }

/-- The body of the `for` of `dial` for hop `i` of call `n`, up to the new value of
`client`: load the key, then dial directly when `client == nil` and through `client`
otherwise. -/
def hopOutcome (env : NetEnv) (n i : Nat) (client : Option Handle) : Except Err Handle :=
  match env.parseClientConfig n i with
  | some e => .error e
  | none =>
    match client with
    | none => env.sshDial n i
    | some _ =>
      match env.clientDial n i with
      | some e => .error e
      | none => env.newClientConn n i

/-- Go `for _, sc := range st.sshConfigs` in `dial`, started at hop index `i` with the
current value of the named result `client`. -/
def dialLoop (env : NetEnv) (n : Nat) : List SshConfig → Nat → Option Handle → DialRun
  | [], _, client =>
    { result := .ok client, opened := [], closed := [], chain := [], attempts := [] }
  | sc :: rest, i, client =>
    match hopOutcome env n i client with
    | .error e => DialRun.abort i e
    | .ok h => DialRun.after i h sc.HostName (dialLoop env n rest (i + 1) (some h))

/-- The effects of the `n`-th call of `dial` on the hop list `cfs`. -/
def dialRun (env : NetEnv) (n : Nat) (cfs : List SshConfig) : DialRun :=
  dialLoop env n cfs 0 none

/-! ## The tunnel and the world it acts on -/

/-- Go `type SshTunnel struct` (the wait group is modelled apart, in `Sys`). -/
structure SshTunnel where
  sshConfigs : List SshConfig
  sshClient : Option Handle
  dialChain : List String

/-- The record of the effects of the tunnel on transport handles. -/
structure World where
  /-- Number of calls of `dial` made so far. -/
  dialCalls : Nat
  /-- Handles opened so far, oldest first. -/
  opened : List Handle
  /-- Handles on which `Close` was called, oldest first. -/
  closed : List Handle
  /-- Pairs (call, hop) for which hop work was started. -/
  attempts : List (Nat × Nat)
  /-- Seconds spent in `time.Sleep`. -/
  slept : Nat

/-- A world in which nothing has happened. -/
def World.init : World :=
  { dialCalls := 0, opened := [], closed := [], attempts := [], slept := 0 }

/-- Go `func (st *SshTunnel) dial() (client *ssh.Client, err error)`. -/
def SshTunnel.dial (env : NetEnv) (st : SshTunnel) (w : World) :
    Except Err (Option Handle) × SshTunnel × World :=
  let r := dialRun env w.dialCalls st.sshConfigs
  (r.result,
   { st with dialChain := st.dialChain ++ r.chain },
   { w with
      dialCalls := w.dialCalls + 1
      opened := w.opened ++ r.opened
      closed := w.closed ++ r.closed
      attempts := w.attempts ++ r.attempts.map (fun i => (w.dialCalls, i)) })

/-- How a piece of code that may loop or crash ends. -/
inductive Outcome (α : Type) where
  /-- It returned. -/
  | done (a : α)
  /-- It is still running when the fuel is spent. -/
  | running
  /-- It panicked (nil dereference, `plog.PanicError`, negative wait-group counter). -/
  | panicked (e : Err)
  /-- It ended the process through `plog.Fatalf`. -/
  | fatal (e : Err)

/-- One pass through the body of the inner `for` of `keepAlive`: `true` when the pass
leaves the loop through `break`. -/
def reconnectIter (env : NetEnv) (st : SshTunnel) (w : World) : Bool × SshTunnel × World :=
  match st.dial env w with
  | (.error _, st1, w1) => (false, st1, { w1 with slept := w1.slept + 3 })
  | (.ok newClient, st1, w1) => (true, { st1 with sshClient := newClient }, w1)

/-- The inner `for` of `keepAlive`, run for at most `fuel` passes. -/
def reconnectLoop (env : NetEnv) : Nat → SshTunnel → World → Outcome (SshTunnel × World)
  | 0, _, _ => .running
  | fuel + 1, st, w =>
    match reconnectIter env st w with
    | (true, st1, w1) => .done (st1, w1)
    | (false, st1, w1) => reconnectLoop env fuel st1 w1

/-- The state reached after `j` passes through the body of the inner `for`. -/
def reconnectAfter (env : NetEnv) : Nat → SshTunnel → World → SshTunnel × World
  | 0, st, w => (st, w)
  | j + 1, st, w =>
    let r := reconnectIter env st w
    reconnectAfter env j r.2.1 r.2.2

/-- The first half of the body of `for range tick.C` when `SendRequest` returned an error:
close the old client if there is one, then set `st.sshClient = nil`. -/
def dropClient (st : SshTunnel) (w : World) : SshTunnel × World :=
  let w1 : World :=
    match st.sshClient with
    | some c => { w with closed := w.closed ++ [c] }
    | none => w
  ({ st with sshClient := none }, w1)

/-- One tick of `keepAlive`: `probe` is the error of `SendRequest`, if any.  A nil
`st.sshClient` makes `SendRequest` dereference nil. -/
def keepAliveTick (env : NetEnv) (fuel : Nat) (probe : Option Err) (st : SshTunnel) (w : World) :
    Outcome (SshTunnel × World) :=
  match st.sshClient with
  | none => .panicked "nil pointer dereference"
  | some _ =>
    match probe with
    | none => .done (st, w)
    | some _ =>
      let r := dropClient st w
      reconnectLoop env fuel r.1 r.2

/-- Go `func NewTunnel(cfs ...*SshConfig) *SshTunnel`, up to the start of `keepAlive`. -/
def NewTunnel (os : OsEnv) (env : NetEnv) (cfs : List SshConfig) (w : World) :
    Outcome (SshTunnel × World) :=
  let cfs1 := cfs.map (SshConfig.SetDefaults os)
  let tunnel : SshTunnel := { sshConfigs := cfs1, sshClient := none, dialChain := [] }
  match tunnel.dial env w with
  | (.error e, _, _) => .panicked e
  | (.ok client, t1, w1) => .done ({ t1 with sshClient := client }, w1)

/-! ## Connection profiles (`internal/cmd`) -/

/-- Go `type ConnectionProfile struct`. -/
structure ConnectionProfile where
  EnvName : String
  Host : SshConfig

/-- Go `func (cp *ConnectionProfile) Validate() error`. -/
def ConnectionProfile.Validate (cp : ConnectionProfile) : Option Err :=
  if cp.Host.HostName = "" then some "SSH hostName requred" else none

/-- The `for _, p := range allProfiles` of `newTunnel`: the first profile named `envName`. -/
def selectProfile (envName : String) : List ConnectionProfile → Option ConnectionProfile
  | [] => none
  | p :: rest => if p.EnvName = envName then some p else selectProfile envName rest

/-- Go `func newTunnel() *sshtunnel.SshTunnel`.  `loaded` is what `profiles(&allProfiles)`
gives (the flag library is outside the repository) and `envName` is `env()`. -/
def newTunnel (os : OsEnv) (env : NetEnv) (loaded : Except Err (List ConnectionProfile))
    (envName : String) (w : World) : Outcome (SshTunnel × World) :=
  match loaded with
  | .error e => .panicked e
  | .ok allProfiles =>
    match selectProfile envName allProfiles with
    | none => .fatal "no connection profile found"
    | some profile => NewTunnel os env [profile.Host] w

/-! ## Listeners, connections and the relay tasks -/

/-- A listener (Go `net.Listener`), named by a number. -/
abbrev Listener := Nat

/-- A connection (Go `net.Conn`), named by a number. -/
abbrev Conn := Nat

/-- The record of the effects of an engine on listeners and connections. -/
structure EngineWorld where
  /-- Listeners obtained from `net.Listen` or `sshClient.Listen`, oldest first. -/
  openedListeners : List Listener
  /-- Listeners on which `Close` was called, one entry per call. -/
  closedListeners : List Listener
  /-- Connections on which `Close` was called, one entry per call. -/
  closedConns : List Conn
  /-- Addresses dialled by relay tasks. -/
  dialed : List String
  /-- Accepted connections handed to a relay task by `go func(...)`. -/
  relays : List Conn
deriving DecidableEq, Repr

/-- An engine world in which nothing has happened. -/
def EngineWorld.init : EngineWorld :=
  { openedListeners := [], closedListeners := [], closedConns := [], dialed := [], relays := [] }

/-- Listeners that were opened and never closed. -/
def EngineWorld.leakedListeners (w : EngineWorld) : List Listener :=
  w.openedListeners.filter (fun l => decide (l ∉ w.closedListeners))

/-- What `handleClient(ctx, local, remote)` has done when it returns: the deferred
`remote.Close()` runs first, then the deferred `local.Close()`. -/
def handleClientReturn (loc remote : Conn) (w : EngineWorld) : EngineWorld :=
  { w with closedConns := w.closedConns ++ [remote, loc] }

/-- The relay task of `Forward` (`go func(local net.Conn)`), run to its return.  `sshClient`
is the value of `st.sshClient` when the task reads it and `dial` the result of
`st.sshClient.Dial("tcp", remoteAddr)`. -/
def forwardRelay (sshClient : Option Handle) (remoteAddr : String) (dial : Except Err Conn)
    (loc : Conn) (w : EngineWorld) : EngineWorld :=
  let body : EngineWorld :=
    match sshClient with
    | none => w
    | some _ =>
      let w1 := { w with dialed := w.dialed ++ [remoteAddr] }
      match dial with
      | .error _ => w1
      | .ok remote => handleClientReturn loc remote w1
  -- defer local.Close()
  { body with closedConns := body.closedConns ++ [loc] }

/-- The relay task of `Reverse` (`go func(remote net.Conn)`), run to its return.  `dial` is
the result of `net.Dial("tcp", localAddr)`. -/
def reverseRelay (localAddr : String) (dial : Except Err Conn) (remote : Conn)
    (w : EngineWorld) : EngineWorld :=
  let w1 := { w with dialed := w.dialed ++ [localAddr] }
  match dial with
  | .error _ => w1
  | .ok loc => handleClientReturn remote loc w1

/-! ## The accept loops -/

/-- The result of `Accept()`. -/
inductive AcceptResult where
  /-- A connection was accepted. -/
  | conn (c : Conn)
  /-- A `net.Error` whose `Timeout()` is true. -/
  | timeout
  /-- Any other error. -/
  | failed (e : Err)

/-- What the outside world answers during pass `k` of an accept loop. -/
structure LoopEnv where
  /-- Whether `ctx.Err() != nil` at the top of pass `k`. -/
  ctxErrTop : Nat → Bool
  /-- Whether `st.sshClient == nil` when pass `k` reads it. -/
  sshClientNil : Nat → Bool
  /-- The result of the listen call made by pass `k` to rebuild its listener. -/
  listen : Nat → Except Err Listener
  /-- The result of `Accept()` in pass `k`. -/
  accept : Nat → AcceptResult
  /-- Whether `ctx.Err() != nil` after `Accept()` returned a connection in pass `k`. -/
  ctxErrAfter : Nat → Bool

/-- How one pass through the body of an accept loop ends. -/
inductive LoopStep where
  /-- The loop goes on with this value of the listener variable. -/
  | next (lst : Option Listener) (w : EngineWorld)
  /-- The goroutine executes `return`. -/
  | ret (w : EngineWorld)

/-- The part of a pass after the listener variable is known to hold `l`: `Accept()` and
what follows it (the same in `Forward` and `Reverse`). -/
def acceptPart (env : LoopEnv) (k : Nat) (l : Listener) (w : EngineWorld) : LoopStep :=
  match env.accept k with
  | .timeout => .next (some l) w
  | .failed _ => .next none { w with closedListeners := w.closedListeners ++ [l] }
  | .conn c =>
    if env.ctxErrAfter k then .ret w
    else .next (some l) { w with relays := w.relays ++ [c] }

/-- One pass through the `for` of the `Forward` goroutine. -/
def forwardPass (env : LoopEnv) (k : Nat) (lst : Option Listener) (w : EngineWorld) : LoopStep :=
  if env.ctxErrTop k then .ret w
  else
    match lst with
    | none =>
      if env.sshClientNil k then .next none w
      else
        match env.listen k with
        | .error _ => .ret w
        | .ok l => acceptPart env k l { w with openedListeners := w.openedListeners ++ [l] }
    | some l => acceptPart env k l w

/-- One pass through the `for` of the `Reverse` goroutine. -/
def reversePass (env : LoopEnv) (k : Nat) (lst : Option Listener) (w : EngineWorld) : LoopStep :=
  if env.ctxErrTop k then .ret w
  else
    match lst with
    | none =>
      if env.sshClientNil k then .next none w
      else
        match env.listen k with
        | .error _ => .next none w
        | .ok l => acceptPart env k l { w with openedListeners := w.openedListeners ++ [l] }
    | some l => acceptPart env k l w

/-- An accept loop with body `pass`, run for at most `fuel` passes from pass `k`. -/
def acceptLoop (pass : Nat → Option Listener → EngineWorld → LoopStep) :
    Nat → Nat → Option Listener → EngineWorld → Outcome EngineWorld
  | 0, _, _, _ => .running
  | fuel + 1, k, lst, w =>
    match pass k lst w with
    | .ret w1 => .done w1
    | .next lst1 w1 => acceptLoop pass fuel (k + 1) lst1 w1

/-- The goroutine of an engine whose first listener is `l0`.  `defer localLst.Close()`
(`defer remoteLst.Close()`) evaluates its receiver when the `defer` statement runs, so the
deferred call closes `l0`. -/
def engineGoroutine (pass : Nat → Option Listener → EngineWorld → LoopStep) (fuel : Nat)
    (l0 : Listener) (w : EngineWorld) : Outcome EngineWorld :=
  match acceptLoop pass fuel 0 (some l0) w with
  | .done w1 => .done { w1 with closedListeners := w1.closedListeners ++ [l0] }
  | o => o

/-- Go `func (st *SshTunnel) Forward(...)`: `listen0` is the result of the first
`net.Listen`; on success the outcome of the goroutine it starts is given. -/
def Forward (env : LoopEnv) (fuel : Nat) (listen0 : Except Err Listener) (w : EngineWorld) :
    Except Err (Outcome EngineWorld) :=
  match listen0 with
  | .error e => .error e
  | .ok l0 =>
    .ok (engineGoroutine (forwardPass env) fuel l0
      { w with openedListeners := w.openedListeners ++ [l0] })

/-- Go `func (st *SshTunnel) Reverse(...)`: `listen0` is the result of the first
`st.sshClient.Listen`; on success the outcome of the goroutine it starts is given. -/
def Reverse (env : LoopEnv) (fuel : Nat) (listen0 : Except Err Listener) (w : EngineWorld) :
    Except Err (Outcome EngineWorld) :=
  match listen0 with
  | .error e => .error e
  | .ok l0 =>
    .ok (engineGoroutine (reversePass env) fuel l0
      { w with openedListeners := w.openedListeners ++ [l0] })

/-! ## `handleClient` as a transition system -/

/-- The state of one run of `handleClient(ctx, local, remote)`. -/
structure HC where
  /-- The goroutine `io.Copy(local, remote)` has finished and called `cancel()`. -/
  remoteToLocalDone : Bool
  /-- The goroutine `io.Copy(remote, local)` has finished and called `cancel()`. -/
  localToRemoteDone : Bool
  /-- The context passed in by the caller has been cancelled. -/
  parentCancelled : Bool
  /-- The channel `ctx.Done()` of the derived context is closed. -/
  ctxDone : Bool
  /-- `handleClient` has returned. -/
  returned : Bool
  /-- Connections on which `Close` was called, in order. -/
  closed : List Conn
deriving DecidableEq, Repr

/-- The state right after `context.WithCancel(ctx)` and the two `go` statements. -/
def HC.init : HC :=
  { remoteToLocalDone := false, localToRemoteDone := false, parentCancelled := false,
    ctxDone := false, returned := false, closed := [] }

/-- The moves of the three goroutines of `handleClient` and of the owner of its context. -/
inductive HCOp where
  /-- The `remote -> local` copy ends and calls `cancel()`. -/
  | remoteToLocalEnds
  /-- The `local -> remote` copy ends and calls `cancel()`. -/
  | localToRemoteEnds
  /-- The caller's context is cancelled, which cancels the derived one. -/
  | parentCancel
  /-- `<-ctx.Done()` unblocks and `handleClient` returns, running its deferred closes. -/
  | ret
deriving DecidableEq, Repr

/-- One move of `handleClient`; `none` when the move is not enabled. -/
def HC.step (loc remote : Conn) (s : HC) : HCOp → Option HC
  | .remoteToLocalEnds =>
    if s.remoteToLocalDone then none
    else some { s with remoteToLocalDone := true, ctxDone := true }
  | .localToRemoteEnds =>
    if s.localToRemoteDone then none
    else some { s with localToRemoteDone := true, ctxDone := true }
  | .parentCancel => some { s with parentCancelled := true, ctxDone := true }
  | .ret =>
    if s.ctxDone && !s.returned then
      some { s with returned := true, closed := s.closed ++ [remote, loc] }
    else none

/-- A sequence of moves of `handleClient`. -/
def HC.run (loc remote : Conn) : HC → List HCOp → Option HC
  | s, [] => some s
  | s, op :: ops =>
    match HC.step loc remote s op with
    | none => none
    | some s1 => HC.run loc remote s1 ops

/-! ## The wait group -/

/-- The life of a tunnel as seen by `st.wg`. -/
structure Sys where
  /-- The counter of `st.wg`. -/
  wg : Int
  /-- Accept-loop goroutines that have not returned. -/
  loops : Nat
  /-- Relay goroutines that have been started and have not returned. -/
  relays : Nat
  /-- Calls of `Close` so far. -/
  closes : Nat
  /-- A call of `Wait` has returned. -/
  waitReturned : Bool
deriving DecidableEq, Repr

/-- The tunnel returned by `NewTunnel`: the zero value of `sync.WaitGroup`. -/
def Sys.init : Sys :=
  { wg := 0, loops := 0, relays := 0, closes := 0, waitReturned := false }

/-- The operations on a tunnel and the moves of its goroutines. -/
inductive Op where
  /-- A call of `Forward` or `Reverse` whose listen succeeds: `Add(1)` and `go func()`. -/
  | engineStart
  /-- A call of `Forward` or `Reverse` whose listen fails: `Add(1)` and `return err`. -/
  | engineFail
  /-- A running accept loop hands an accepted connection to a new relay goroutine. -/
  | accept
  /-- A relay goroutine returns. -/
  | relayReturn
  /-- An accept-loop goroutine returns: the deferred `st.wg.Done()`. -/
  | loopExit
  /-- A call of `Close`: `st.wg.Done()` and `st.sshClient.Close()`. -/
  | close
  /-- A call of `Wait` returns. -/
  | waitReturn
deriving DecidableEq, Repr

/-- How one operation ends. -/
inductive Step (α : Type) where
  /-- It was carried out. -/
  | ok (a : α)
  /-- It cannot happen in this state. -/
  | disabled
  /-- It panicked. -/
  | crash (e : Err)
deriving DecidableEq, Repr

/-- Go `(*sync.WaitGroup).Add(delta)`; `Done()` is `Add(-1)`. -/
def wgAdd (delta : Int) (s : Sys) : Step Sys :=
  if s.wg + delta < 0 then .crash "sync: negative WaitGroup counter"
  else .ok { s with wg := s.wg + delta }

/-- Go `func (st *SshTunnel) Close() error`: `st.wg.Done()` comes first. -/
def Sys.Close (s : Sys) : Step Sys :=
  match wgAdd (-1) s with
  | .ok s1 => .ok { s1 with closes := s1.closes + 1 }
  | r => r

/-- Go `func (st *SshTunnel) Wait()`: `st.wg.Wait()` returns when the counter is zero. -/
def Sys.Wait (s : Sys) : Step Sys :=
  if s.wg = 0 then .ok { s with waitReturned := true } else .disabled

/-- One operation. -/
def Sys.step (s : Sys) : Op → Step Sys
  | .engineStart =>
    match wgAdd 1 s with
    | .ok s1 => .ok { s1 with loops := s1.loops + 1 }
    | r => r
  | .engineFail => wgAdd 1 s
  | .accept => if 0 < s.loops then .ok { s with relays := s.relays + 1 } else .disabled
  | .relayReturn => if 0 < s.relays then .ok { s with relays := s.relays - 1 } else .disabled
  | .loopExit =>
    if 0 < s.loops then wgAdd (-1) { s with loops := s.loops - 1 } else .disabled
  | .close => s.Close
  | .waitReturn => s.Wait

/-- A sequence of operations, stopped at the first one that is not carried out. -/
def Sys.run : Sys → List Op → Step Sys
  | s, [] => .ok s
  | s, op :: ops =>
    match s.step op with
    | .ok s1 => Sys.run s1 ops
    | r => r

/-! ## Concrete environments used to evaluate the code -/

/-- A process environment. -/
def osDemo : OsEnv := { HOME := "/home/u", USER := "u" }

/-- A network in which every key loads and every dial and handshake succeeds, hop `i`
giving handle `7 + i`. -/
def netAllOk : NetEnv :=
  { parseClientConfig := fun _ _ => none
    sshDial := fun _ i => .ok (7 + i)
    clientDial := fun _ _ => none
    newClientConn := fun _ i => .ok (7 + i) }

/-- A network in which the first hop succeeds with handle `7` and the channel to the
second hop cannot be opened. -/
def netSecondHopDown : NetEnv :=
  { parseClientConfig := fun _ _ => none
    sshDial := fun _ _ => .ok 7
    clientDial := fun _ i => if i = 1 then some "connection refused" else none
    newClientConn := fun _ i => .ok (7 + i) }

/-- A network that refuses the first two calls of `dial` and accepts from the third on,
call `n` giving handle `40 + n`. -/
def netTwoRefusals : NetEnv :=
  { parseClientConfig := fun _ _ => none
    sshDial := fun n _ => if n < 2 then .error "connection refused" else .ok (40 + n)
    clientDial := fun _ _ => none
    newClientConn := fun n _ => .ok (40 + n) }

/-- A one-hop configuration after `SetDefaults`. -/
def cfgA : SshConfig := { HostName := "a:22", User := "u", IdentityFile := "/k" }

/-- A second hop. -/
def cfgB : SshConfig := { HostName := "b:22", User := "u", IdentityFile := "/k" }

/-- A one-hop tunnel whose current transport is handle `1`. -/
def tunnelA : SshTunnel := { sshConfigs := [cfgA], sshClient := some 1, dialChain := ["a:22"] }

/-- A two-hop tunnel before its first dial. -/
def tunnelAB : SshTunnel := { sshConfigs := [cfgA, cfgB], sshClient := none, dialChain := [] }

/-- A profile whose host name is the empty string. -/
def profileNoHost : ConnectionProfile :=
  { EnvName := "dev", Host := { HostName := "", User := "", IdentityFile := "" } }

/-- An accept loop whose first `Accept()` fails with a non-timeout error, whose listener
is rebuilt as listener `2` in the next pass, and whose context is cancelled before the
third pass. -/
def envRebuildThenCancel : LoopEnv :=
  { ctxErrTop := fun k => decide (2 ≤ k)
    sshClientNil := fun _ => false
    listen := fun _ => .ok 2
    accept := fun k => if k = 0 then .failed "use of closed network connection" else .timeout
    ctxErrAfter := fun k => decide (2 ≤ k) }

/-- What `handleClient` guarantees in every state, for connections `loc` and `remote`. -/
def HC.Inv (loc remote : Conn) (s : HC) : Prop :=
  (s.ctxDone = true →
    s.remoteToLocalDone = true ∨ s.localToRemoteDone = true ∨ s.parentCancelled = true) ∧
  (s.returned = true → s.ctxDone = true ∧ s.closed = [remote, loc]) ∧
  (s.returned = false → s.closed = [])

/-- What the wait group guarantees in every state. -/
def Sys.Inv (s : Sys) : Prop :=
  0 ≤ s.wg ∧ (s.loops : Int) ≤ s.wg + s.closes

/-! ## Helper lemmas on strings -/

theorem append_idrsa_ne_empty (h : String) : h ++ "/.ssh/id_rsa" ≠ "" := by
  intro hh
  have := congrArg String.length hh
  simp [String.length_append] at this
  have h2 : "/.ssh/id_rsa".length = 12 := by decide
  omega

theorem contains_colon_append22 (h : String) : stringsContains (h ++ ":22") ":" = true := by
  unfold stringsContains
  simp only [decide_eq_true_eq, String.data_append]
  exact ⟨h.data, ['2', '2'], by simp⟩


/-! ## Lemmas on `dial` -/

theorem dialLoop_closed (env : NetEnv) (n : Nat) (cfs : List SshConfig) :
    ∀ (i : Nat) (client : Option Handle), (dialLoop env n cfs i client).closed = [] := by
  induction cfs with
  | nil => intro i client; rfl
  | cons sc rest ih =>
    intro i client
    unfold dialLoop
    cases hopOutcome env n i client with
    | error e => rfl
    | ok h => simpa [DialRun.after] using ih (i + 1) (some h)

theorem dial_closed (env : NetEnv) (st : SshTunnel) (w : World) :
    (st.dial env w).2.2.closed = w.closed := by
  simp [SshTunnel.dial, dialRun, dialLoop_closed]

theorem dialLoop_first_error (env : NetEnv) (n : Nat) (hs : Nat → Handle) (e : Err)
    (cfs : List SshConfig) :
    ∀ (k i : Nat), k ≤ i → i - k < cfs.length →
      (∀ j, k ≤ j → j < i →
        hopOutcome env n j (if j = 0 then none else some (hs (j - 1))) = .ok (hs j)) →
      hopOutcome env n i (if i = 0 then none else some (hs (i - 1))) = .error e →
      (dialLoop env n cfs k (if k = 0 then none else some (hs (k - 1)))).result = .error e ∧
      (dialLoop env n cfs k (if k = 0 then none else some (hs (k - 1)))).attempts
        = List.range' k (i - k + 1) ∧
      (dialLoop env n cfs k (if k = 0 then none else some (hs (k - 1)))).opened
        = (List.range' k (i - k)).map hs := by
  induction cfs with
  | nil => intro k i _ hlen; simp at hlen
  | cons sc rest ih =>
    intro k i hki hlen hbefore hfail
    rcases Nat.eq_or_lt_of_le hki with heq | hlt
    · subst heq
      unfold dialLoop
      rw [hfail]
      simp [DialRun.abort]
    · have hk := hbefore k (le_refl k) hlt
      have hlen2 : i - (k + 1) < rest.length := by
        simp only [List.length_cons] at hlen
        omega
      have hrec := ih (k + 1) i hlt hlen2
        (fun j hj1 hj2 => hbefore j (by omega) hj2) hfail
      simp only [Nat.add_sub_cancel, Nat.succ_ne_zero, if_false] at hrec
      have hrec2 : (dialLoop env n rest (k + 1) (some (hs k))).result = .error e ∧
          (dialLoop env n rest (k + 1) (some (hs k))).attempts = List.range' (k + 1) (i - (k + 1) + 1) ∧
          (dialLoop env n rest (k + 1) (some (hs k))).opened = (List.range' (k + 1) (i - (k + 1))).map hs := by
        simpa using hrec
      obtain ⟨r1, r2, r3⟩ := hrec2
      unfold dialLoop
      rw [hk]
      have e1 : i - k + 1 = (i - (k + 1) + 1) + 1 := by omega
      have e2 : i - k = (i - (k + 1)) + 1 := by omega
      refine ⟨?_, ?_, ?_⟩
      · simpa [DialRun.after] using r1
      · rw [e1, List.range'_succ]
        simp [DialRun.after, r2]
      · rw [e2, List.range'_succ]
        simp [DialRun.after, r3]

/-! ## Lemmas on the reconnection loop -/

theorem reconnectIter_error (env : NetEnv) (st : SshTunnel) (w : World) (e : Err)
    (h : (dialRun env w.dialCalls st.sshConfigs).result = .error e) :
    ∃ st1 w1, reconnectIter env st w = (false, st1, w1) ∧ st1.sshConfigs = st.sshConfigs ∧
      st1.sshClient = st.sshClient ∧ w1.dialCalls = w.dialCalls + 1 ∧
      w1.closed = w.closed ∧ w1.slept = w.slept + 3 := by
  refine ⟨(st.dial env w).2.1,
    { (st.dial env w).2.2 with slept := (st.dial env w).2.2.slept + 3 }, ?_, ?_⟩
  · simp [reconnectIter, SshTunnel.dial, h]
  · simp [SshTunnel.dial, dialRun, dialLoop_closed]

theorem reconnectIter_ok (env : NetEnv) (st : SshTunnel) (w : World) (c : Option Handle)
    (h : (dialRun env w.dialCalls st.sshConfigs).result = .ok c) :
    ∃ st1 w1, reconnectIter env st w = (true, st1, w1) ∧ st1.sshConfigs = st.sshConfigs ∧
      st1.sshClient = c ∧ w1.dialCalls = w.dialCalls + 1 ∧
      w1.closed = w.closed ∧ w1.slept = w.slept := by
  refine ⟨{ (st.dial env w).2.1 with sshClient := c }, (st.dial env w).2.2, ?_, ?_⟩
  · simp [reconnectIter, SshTunnel.dial, h]
  · simp [SshTunnel.dial, dialRun, dialLoop_closed]

theorem reconnectLoop_spec (env : NetEnv) (h : Handle) (K : Nat) :
    ∀ (st : SshTunnel) (w : World), st.sshClient = none →
      (∀ j, j < K → ∃ e, (dialRun env (w.dialCalls + j) st.sshConfigs).result = .error e) →
      (dialRun env (w.dialCalls + K) st.sshConfigs).result = .ok (some h) →
      (∀ j, j ≤ K → (reconnectAfter env j st w).1.sshClient = none ∧
        (reconnectAfter env j st w).2.dialCalls = w.dialCalls + j) ∧
      (∀ fuel, fuel ≤ K → reconnectLoop env fuel st w = .running) ∧
      (∀ fuel, K < fuel → ∃ st1 w1, reconnectLoop env fuel st w = .done (st1, w1) ∧
        st1.sshClient = some h ∧ w1.dialCalls = w.dialCalls + (K + 1) ∧
        w1.closed = w.closed ∧ w1.slept = w.slept + 3 * K) := by
  induction K with
  | zero =>
    intro st w hnone _ hok
    refine ⟨?_, ?_, ?_⟩
    · intro j hj
      have : j = 0 := by omega
      subst this
      simp [reconnectAfter, hnone]
    · intro fuel hf
      have : fuel = 0 := by omega
      subst this
      rfl
    · intro fuel hf
      obtain ⟨f, rfl⟩ : ∃ f, fuel = f + 1 := ⟨fuel - 1, by omega⟩
      obtain ⟨st1, w1, hit, _, hc, hd, hcl, hsl⟩ := reconnectIter_ok env st w (some h) (by simpa using hok)
      exact ⟨st1, w1, by simp [reconnectLoop, hit], hc, by omega, hcl, by omega⟩
  | succ K ih =>
    intro st w hnone hfail hok
    obtain ⟨e, he⟩ := hfail 0 (by omega)
    obtain ⟨st1, w1, hit, hcfg, hc, hd, hcl, hsl⟩ := reconnectIter_error env st w e (by simpa using he)
    have hnone1 : st1.sshClient = none := by rw [hc, hnone]
    have hfail1 : ∀ j, j < K → ∃ e, (dialRun env (w1.dialCalls + j) st1.sshConfigs).result = .error e := by
      intro j hj
      have := hfail (j + 1) (by omega)
      rw [hd, hcfg]
      have e1 : w.dialCalls + 1 + j = w.dialCalls + (j + 1) := by omega
      rw [e1]
      exact this
    have hok1 : (dialRun env (w1.dialCalls + K) st1.sshConfigs).result = .ok (some h) := by
      rw [hd, hcfg]
      have e1 : w.dialCalls + 1 + K = w.dialCalls + (K + 1) := by omega
      rw [e1]
      exact hok
    obtain ⟨a1, a2, a3⟩ := ih st1 w1 hnone1 hfail1 hok1
    refine ⟨?_, ?_, ?_⟩
    · intro j hj
      cases j with
      | zero => simp [reconnectAfter, hnone]
      | succ j =>
        have := a1 j (by omega)
        simp only [reconnectAfter, hit]
        refine ⟨this.1, ?_⟩
        rw [this.2, hd]
        omega
    · intro fuel hf
      cases fuel with
      | zero => rfl
      | succ f =>
        simp only [reconnectLoop, hit]
        exact a2 f (by omega)
    · intro fuel hf
      obtain ⟨f, rfl⟩ : ∃ f, fuel = f + 1 := ⟨fuel - 1, by omega⟩
      obtain ⟨st2, w2, hr, h1, h2, h3, h4⟩ := a3 f (by omega)
      refine ⟨st2, w2, by simp only [reconnectLoop, hit]; exact hr, h1, ?_, ?_, ?_⟩
      · rw [h2, hd]; omega
      · rw [h3, hcl]
      · rw [h4, hsl]; omega

/-! ## C1 -/

/-- C1: when a keepalive probe fails on a tunnel whose transport is `old`, the next `K`
calls of `dial` fail and the call after them succeeds with handle `h`, then `keepAlive`
closes `old` and sets the transport absent, the transport stays absent after each of the
first `K` passes (pass `j` having made `j` calls of `dial`), the loop is still running
after any number of passes up to `K`, and with more than `K` passes it returns with
transport `h` after exactly `K + 1` calls of `dial`. -/
theorem keepAlive_reconnect_persistence (env : NetEnv) (st : SshTunnel) (w : World)
    (old h : Handle) (cause : Err) (K : Nat)
    (hold : st.sshClient = some old)
    (hfail : ∀ j, j < K → ∃ e, (dialRun env (w.dialCalls + j) st.sshConfigs).result = .error e)
    (hok : (dialRun env (w.dialCalls + K) st.sshConfigs).result = .ok (some h)) :
    (dropClient st w).1.sshClient = none ∧
    (dropClient st w).2.closed = w.closed ++ [old] ∧
    (∀ j, j ≤ K →
      (reconnectAfter env j (dropClient st w).1 (dropClient st w).2).1.sshClient = none ∧
      (reconnectAfter env j (dropClient st w).1 (dropClient st w).2).2.dialCalls
        = w.dialCalls + j) ∧
    (∀ fuel, fuel ≤ K → keepAliveTick env fuel (some cause) st w = .running) ∧
    (∀ fuel, K < fuel → ∃ st1 w1,
      keepAliveTick env fuel (some cause) st w = .done (st1, w1) ∧
      st1.sshClient = some h ∧ w1.dialCalls = w.dialCalls + (K + 1) ∧
      w1.closed = w.closed ++ [old] ∧ w1.slept = w.slept + 3 * K) := by
  have hd1 : (dropClient st w).1.sshClient = none := rfl
  have hd2 : (dropClient st w).2.closed = w.closed ++ [old] := by simp [dropClient, hold]
  have hd3 : (dropClient st w).2.dialCalls = w.dialCalls := by simp [dropClient, hold]
  have hd4 : (dropClient st w).1.sshConfigs = st.sshConfigs := rfl
  have hd5 : (dropClient st w).2.slept = w.slept := by simp [dropClient, hold]
  obtain ⟨a1, a2, a3⟩ := reconnectLoop_spec env h K (dropClient st w).1 (dropClient st w).2 hd1
    (by rw [hd3, hd4]; exact hfail) (by rw [hd3, hd4]; exact hok)
  refine ⟨hd1, hd2, ?_, ?_, ?_⟩
  · intro j hj
    have := a1 j hj
    rw [hd3] at this
    exact this
  · intro fuel hf
    simp only [keepAliveTick, hold]
    exact a2 fuel hf
  · intro fuel hf
    obtain ⟨st1, w1, hr, h1, h2, h3, h4⟩ := a3 fuel hf
    refine ⟨st1, w1, ?_, h1, ?_, ?_, ?_⟩
    · simp only [keepAliveTick, hold]
      exact hr
    · rw [h2, hd3]
    · rw [h3, hd2]
    · rw [h4, hd5]

/-- C1 at a network that refuses two calls of `dial` and accepts the third with handle
`42`: still running after two passes, returned after the third with transport `42`. -/
theorem keepAlive_reconnect_persistence_witness :
    tunnelA.sshClient = some 1 ∧
    keepAliveTick netTwoRefusals 2 (some "EOF") tunnelA World.init = .running ∧
    ∃ st1 w1, keepAliveTick netTwoRefusals 3 (some "EOF") tunnelA World.init = .done (st1, w1) ∧
      st1.sshClient = some 42 ∧ w1.dialCalls = World.init.dialCalls + (2 + 1) ∧
      w1.closed = World.init.closed ++ [1] ∧ w1.slept = World.init.slept + 3 * 2 :=
  have key := keepAlive_reconnect_persistence netTwoRefusals tunnelA World.init 1 42 "EOF" 2 rfl
    (by
      intro j hj
      have hj2 : j = 0 ∨ j = 1 := by omega
      rcases hj2 with rfl | rfl
      · exact ⟨"connection refused", rfl⟩
      · exact ⟨"connection refused", rfl⟩)
    rfl
  ⟨rfl, key.2.2.2.1 2 (le_refl 2), key.2.2.2.2 3 (by decide)⟩

/-! ## C2 -/

/-- C2 as stated fails: on the two-hop chain whose first hop gives handle `7` and whose
second hop cannot be reached, `dial` returns the error with handle `7` opened and no
handle closed. -/
theorem dial_abort_leaves_handle_open :
    (tunnelAB.dial netSecondHopDown World.init).1 = .error "connection refused" ∧
    (tunnelAB.dial netSecondHopDown World.init).2.2.attempts = [(0, 0), (0, 1)] ∧
    7 ∈ (tunnelAB.dial netSecondHopDown World.init).2.2.opened ∧
    7 ∉ (tunnelAB.dial netSecondHopDown World.init).2.2.closed := by
  refine ⟨rfl, rfl, ?_, ?_⟩
  · simp [SshTunnel.dial, tunnelAB, netSecondHopDown, World.init, dialRun, dialLoop, hopOutcome,
      DialRun.after, DialRun.abort]
  · simp [SshTunnel.dial, tunnelAB, netSecondHopDown, World.init, dialRun, dialLoop, hopOutcome,
      DialRun.after, DialRun.abort]

/-- C2 amended: when the hops before `i` succeed with handles `hs 0, ..., hs (i - 1)` and
hop `i` is the first to fail, with error `e`, `dial` returns `e` with no handle, starts
work on hops `0, ..., i` only, has opened exactly the handles of the hops before `i`, and
calls `Close` on no handle. -/
theorem dial_abort_first_error (env : NetEnv) (st : SshTunnel) (w : World) (i : Nat) (e : Err)
    (hs : Nat → Handle)
    (hi : i < st.sshConfigs.length)
    (hbefore : ∀ j, j < i →
      hopOutcome env w.dialCalls j (if j = 0 then none else some (hs (j - 1))) = .ok (hs j))
    (hfail : hopOutcome env w.dialCalls i (if i = 0 then none else some (hs (i - 1))) = .error e) :
    (st.dial env w).1 = .error e ∧
    (st.dial env w).2.2.attempts
      = w.attempts ++ (List.range (i + 1)).map (fun j => (w.dialCalls, j)) ∧
    (st.dial env w).2.2.opened = w.opened ++ (List.range i).map hs ∧
    (st.dial env w).2.2.closed = w.closed := by
  obtain ⟨r1, r2, r3⟩ := dialLoop_first_error env w.dialCalls hs e st.sshConfigs 0 i
    (Nat.zero_le i) (by simpa using hi) (fun j _ hj => hbefore j hj) hfail
  simp only [if_true] at r1 r2 r3
  refine ⟨?_, ?_, ?_, dial_closed env st w⟩
  · simpa [SshTunnel.dial, dialRun] using r1
  · simp only [SshTunnel.dial, dialRun, r2, List.range_eq_range', Nat.sub_zero]
  · simp only [SshTunnel.dial, dialRun, r3, List.range_eq_range', Nat.sub_zero]

/-- C2 amended, at the two-hop chain whose second hop cannot be reached. -/
theorem dial_abort_first_error_witness :
    (tunnelAB.dial netSecondHopDown World.init).1 = .error "connection refused" ∧
    (tunnelAB.dial netSecondHopDown World.init).2.2.attempts
      = World.init.attempts ++ (List.range (1 + 1)).map (fun j => (World.init.dialCalls, j)) ∧
    (tunnelAB.dial netSecondHopDown World.init).2.2.opened
      = World.init.opened ++ (List.range 1).map (fun _ => 7) ∧
    (tunnelAB.dial netSecondHopDown World.init).2.2.closed = World.init.closed :=
  dial_abort_first_error netSecondHopDown tunnelAB World.init 1 "connection refused"
    (fun _ => 7) (by decide)
    (by
      intro j hj
      have hj0 : j = 0 := by omega
      subst hj0
      rfl)
    rfl

/-! ## C9 -/

/-- C9 on the code: `Validate` rejects the profile with the empty host name, yet
`newTunnel` never calls it; with that profile selected `newTunnel` reaches `NewTunnel`,
whose `SetDefaults` turns the host into `":22"`, and `dial` is attempted and succeeds. -/
theorem newTunnel_empty_host_is_dialled :
    profileNoHost.Host.HostName = "" ∧
    profileNoHost.Validate = some "SSH hostName requred" ∧
    ∃ t w, newTunnel osDemo netAllOk (.ok [profileNoHost]) "dev" World.init = .done (t, w) ∧
      w.dialCalls = 1 ∧ w.attempts = [(0, 0)] ∧ t.dialChain = [":22"] ∧
      t.sshClient = some 7 := by
  refine ⟨rfl, rfl, ?_⟩
  refine ⟨_, _, rfl, ?_, ?_, ?_, ?_⟩ <;> rfl

/-! ## Lemmas on `handleClient` -/

theorem hc_step_inv (loc remote : Conn) (s s1 : HC) (op : HCOp)
    (hinv : HC.Inv loc remote s) (hstep : HC.step loc remote s op = some s1) :
    HC.Inv loc remote s1 := by
  obtain ⟨i1, i2, i3⟩ := hinv
  cases op with
  | remoteToLocalEnds =>
    simp only [HC.step] at hstep
    split at hstep
    · exact absurd hstep (by simp)
    · cases hstep
      exact ⟨fun _ => Or.inl rfl, fun hr => ⟨rfl, (i2 hr).2⟩, fun hr => i3 hr⟩
  | localToRemoteEnds =>
    simp only [HC.step] at hstep
    split at hstep
    · exact absurd hstep (by simp)
    · cases hstep
      exact ⟨fun _ => Or.inr (Or.inl rfl), fun hr => ⟨rfl, (i2 hr).2⟩, fun hr => i3 hr⟩
  | parentCancel =>
    simp only [HC.step] at hstep
    cases hstep
    exact ⟨fun _ => Or.inr (Or.inr rfl), fun hr => ⟨rfl, (i2 hr).2⟩, fun hr => i3 hr⟩
  | ret =>
    simp only [HC.step] at hstep
    split at hstep
    · rename_i hc
      cases hstep
      simp only [Bool.and_eq_true, Bool.not_eq_true', ] at hc
      refine ⟨fun hd => i1 hd, fun _ => ⟨hc.1, ?_⟩, fun hr => ?_⟩
      · simp [i3 hc.2]
      · simp at hr
    · exact absurd hstep (by simp)

theorem hc_run_inv (loc remote : Conn) (ops : List HCOp) :
    ∀ (s s1 : HC), HC.Inv loc remote s → HC.run loc remote s ops = some s1 →
      HC.Inv loc remote s1 := by
  induction ops with
  | nil =>
    intro s s1 hinv hrun
    simp only [HC.run, Option.some.injEq] at hrun
    exact hrun ▸ hinv
  | cons op ops ih =>
    intro s s1 hinv hrun
    simp only [HC.run] at hrun
    cases hs : HC.step loc remote s op with
    | none => rw [hs] at hrun; exact absurd hrun (by simp)
    | some s2 =>
      rw [hs] at hrun
      exact ih s2 s1 (hc_step_inv loc remote s s2 op hinv hs) hrun

theorem hc_init_inv (loc remote : Conn) : HC.Inv loc remote HC.init := by
  simp [HC.Inv, HC.init]

/-! ## Lemmas on the wait group -/

theorem wgAdd_ok (delta : Int) (s s1 : Sys) (h : wgAdd delta s = .ok s1) :
    0 ≤ s.wg + delta ∧ s1 = { s with wg := s.wg + delta } := by
  unfold wgAdd at h
  split at h
  · exact absurd h (by simp)
  · rename_i hneg
    simp only [Step.ok.injEq] at h
    exact ⟨by omega, h.symm⟩

theorem sys_step_inv (s s1 : Sys) (op : Op) (hinv : s.Inv) (hstep : s.step op = .ok s1) :
    s1.Inv := by
  obtain ⟨i1, i2⟩ := hinv
  cases op with
  | engineStart =>
    simp only [Sys.step] at hstep
    cases hw : wgAdd 1 s with
    | ok s2 =>
      rw [hw] at hstep
      simp only [Step.ok.injEq] at hstep
      obtain ⟨h1, h2⟩ := wgAdd_ok 1 s s2 hw
      subst h2
      subst hstep
      exact ⟨h1, by simp only [Nat.cast_add, Nat.cast_one]; omega⟩
    | disabled => rw [hw] at hstep; exact absurd hstep (by simp)
    | crash e => rw [hw] at hstep; exact absurd hstep (by simp)
  | engineFail =>
    simp only [Sys.step] at hstep
    obtain ⟨h1, h2⟩ := wgAdd_ok 1 s s1 hstep
    subst h2
    exact ⟨h1, by simp only; omega⟩
  | accept =>
    simp only [Sys.step] at hstep
    split at hstep
    · simp only [Step.ok.injEq] at hstep
      subst hstep
      exact ⟨i1, i2⟩
    · exact absurd hstep (by simp)
  | relayReturn =>
    simp only [Sys.step] at hstep
    split at hstep
    · simp only [Step.ok.injEq] at hstep
      subst hstep
      exact ⟨i1, i2⟩
    · exact absurd hstep (by simp)
  | loopExit =>
    simp only [Sys.step] at hstep
    split at hstep
    · rename_i hpos
      obtain ⟨h1, h2⟩ := wgAdd_ok (-1) _ s1 hstep
      subst h2
      refine ⟨h1, ?_⟩
      simp only
      have : ((s.loops - 1 : Nat) : Int) = (s.loops : Int) - 1 := by omega
      omega
    · exact absurd hstep (by simp)
  | close =>
    simp only [Sys.step, Sys.Close] at hstep
    cases hw : wgAdd (-1) s with
    | ok s2 =>
      rw [hw] at hstep
      simp only [Step.ok.injEq] at hstep
      obtain ⟨h1, h2⟩ := wgAdd_ok (-1) s s2 hw
      subst h2
      subst hstep
      exact ⟨h1, by simp only [Nat.cast_add, Nat.cast_one]; omega⟩
    | disabled => rw [hw] at hstep; exact absurd hstep (by simp)
    | crash e => rw [hw] at hstep; exact absurd hstep (by simp)
  | waitReturn =>
    simp only [Sys.step, Sys.Wait] at hstep
    split at hstep
    · simp only [Step.ok.injEq] at hstep
      subst hstep
      exact ⟨i1, i2⟩
    · exact absurd hstep (by simp)

theorem sys_run_inv (ops : List Op) :
    ∀ (s s1 : Sys), s.Inv → Sys.run s ops = .ok s1 → s1.Inv := by
  induction ops with
  | nil =>
    intro s s1 hinv hrun
    simp only [Sys.run, Step.ok.injEq] at hrun
    exact hrun ▸ hinv
  | cons op ops ih =>
    intro s s1 hinv hrun
    simp only [Sys.run] at hrun
    cases hs : s.step op with
    | ok s2 =>
      rw [hs] at hrun
      exact ih s2 s1 (sys_step_inv s s2 op hinv hs) hrun
    | disabled => rw [hs] at hrun; exact absurd hrun (by simp)
    | crash e => rw [hs] at hrun; exact absurd hrun (by simp)

theorem sys_step_counts (s s1 : Sys) (op : Op) (hstep : s.step op = .ok s1) :
    s1.wg = s.wg + ([op].count Op.engineStart : Int) + ([op].count Op.engineFail : Int)
      - ([op].count Op.loopExit : Int) - ([op].count Op.close : Int) ∧
    (s1.loops : Int) = s.loops + ([op].count Op.engineStart : Int)
      - ([op].count Op.loopExit : Int) ∧
    (s1.relays : Int) = s.relays + ([op].count Op.accept : Int)
      - ([op].count Op.relayReturn : Int) ∧
    s1.closes = s.closes + [op].count Op.close := by
  cases op with
  | engineStart =>
    simp only [Sys.step] at hstep
    cases hw : wgAdd 1 s with
    | ok s2 =>
      rw [hw] at hstep
      simp only [Step.ok.injEq] at hstep
      obtain ⟨_, h2⟩ := wgAdd_ok 1 s s2 hw
      subst h2
      subst hstep
      simp [List.count_cons]
    | disabled => rw [hw] at hstep; exact absurd hstep (by simp)
    | crash e => rw [hw] at hstep; exact absurd hstep (by simp)
  | engineFail =>
    simp only [Sys.step] at hstep
    obtain ⟨_, h2⟩ := wgAdd_ok 1 s s1 hstep
    subst h2
    simp [List.count_cons]
  | accept =>
    simp only [Sys.step] at hstep
    split at hstep
    · simp only [Step.ok.injEq] at hstep
      subst hstep
      simp [List.count_cons]
    · exact absurd hstep (by simp)
  | relayReturn =>
    simp only [Sys.step] at hstep
    split at hstep
    · rename_i hpos
      simp only [Step.ok.injEq] at hstep
      subst hstep
      simp only [List.count_cons, List.count_nil]
      have : ((s.relays - 1 : Nat) : Int) = (s.relays : Int) - 1 := by omega
      simp [this]
    · exact absurd hstep (by simp)
  | loopExit =>
    simp only [Sys.step] at hstep
    split at hstep
    · rename_i hpos
      obtain ⟨_, h2⟩ := wgAdd_ok (-1) _ s1 hstep
      subst h2
      have : ((s.loops - 1 : Nat) : Int) = (s.loops : Int) - 1 := by omega
      simp [List.count_cons, this]
      omega
    · exact absurd hstep (by simp)
  | close =>
    simp only [Sys.step, Sys.Close] at hstep
    cases hw : wgAdd (-1) s with
    | ok s2 =>
      rw [hw] at hstep
      simp only [Step.ok.injEq] at hstep
      obtain ⟨_, h2⟩ := wgAdd_ok (-1) s s2 hw
      subst h2
      subst hstep
      simp [List.count_cons]
      omega
    | disabled => rw [hw] at hstep; exact absurd hstep (by simp)
    | crash e => rw [hw] at hstep; exact absurd hstep (by simp)
  | waitReturn =>
    simp only [Sys.step, Sys.Wait] at hstep
    split at hstep
    · simp only [Step.ok.injEq] at hstep
      subst hstep
      simp [List.count_cons]
    · exact absurd hstep (by simp)

theorem sys_run_counts (ops : List Op) :
    ∀ (s0 s : Sys), Sys.run s0 ops = .ok s →
      s.wg = s0.wg + (ops.count Op.engineStart : Int) + (ops.count Op.engineFail : Int)
        - (ops.count Op.loopExit : Int) - (ops.count Op.close : Int) ∧
      (s.loops : Int) = s0.loops + (ops.count Op.engineStart : Int)
        - (ops.count Op.loopExit : Int) ∧
      (s.relays : Int) = s0.relays + (ops.count Op.accept : Int)
        - (ops.count Op.relayReturn : Int) ∧
      s.closes = s0.closes + ops.count Op.close := by
  induction ops with
  | nil =>
    intro s0 s hrun
    simp only [Sys.run, Step.ok.injEq] at hrun
    subst hrun
    simp
  | cons op ops ih =>
    intro s0 s hrun
    simp only [Sys.run] at hrun
    cases hs : s0.step op with
    | ok s2 =>
      rw [hs] at hrun
      obtain ⟨a1, a2, a3, a4⟩ := sys_step_counts s0 s2 op hs
      obtain ⟨b1, b2, b3, b4⟩ := ih s2 s hrun
      have e : ∀ (x : Op), (op :: ops).count x = [op].count x + ops.count x := by
        intro x
        rw [← List.count_append]
        rfl
      rw [e Op.engineStart, e Op.engineFail, e Op.loopExit, e Op.close, e Op.accept,
        e Op.relayReturn]
      push_cast
      refine ⟨by omega, by omega, by omega, by omega⟩
    | disabled => rw [hs] at hrun; exact absurd hrun (by simp)
    | crash e => rw [hs] at hrun; exact absurd hrun (by simp)

/-! ## C3 -/

/-- C3 as stated fails: after `Forward`, one accepted connection and `Close`, the counter
is zero and `Wait` returns while the relay started for that connection has not returned. -/
theorem wait_returns_with_relay_in_flight :
    ∃ s, Sys.run Sys.init [.engineStart, .accept, .close, .waitReturn] = .ok s ∧
      s.closes = 1 ∧ s.wg = 0 ∧ s.waitReturned = true ∧ s.relays = 1 :=
  ⟨_, rfl, rfl, rfl, rfl, rfl⟩

/-- C3 amended: in every reachable state of a tunnel, `Wait` returns when the counter is
zero and cannot return when it is not; the counter is the number of `Forward`/`Reverse`
calls minus the number of accept-loop exits minus the number of `Close` calls, whatever
relays were started or have returned; so it is not negative and the number of accept
loops still running is at most the counter plus the number of `Close` calls. -/
theorem wait_gate_counts_accept_loops (ops : List Op) (s : Sys)
    (hrun : Sys.run Sys.init ops = .ok s) :
    (s.wg = 0 → s.Wait = .ok { s with waitReturned := true }) ∧
    (s.wg ≠ 0 → s.Wait = .disabled) ∧
    s.wg = (ops.count Op.engineStart : Int) + (ops.count Op.engineFail : Int)
      - (ops.count Op.loopExit : Int) - (ops.count Op.close : Int) ∧
    (s.loops : Int) = (ops.count Op.engineStart : Int) - (ops.count Op.loopExit : Int) ∧
    (s.relays : Int) = (ops.count Op.accept : Int) - (ops.count Op.relayReturn : Int) ∧
    s.closes = ops.count Op.close ∧
    0 ≤ s.wg ∧ (s.loops : Int) ≤ s.wg + s.closes := by
  obtain ⟨c1, c2, c3, c4⟩ := sys_run_counts ops Sys.init s hrun
  obtain ⟨i1, i2⟩ := sys_run_inv ops Sys.init s ⟨by decide, by decide⟩ hrun
  refine ⟨?_, ?_, ?_, ?_, ?_, ?_, i1, i2⟩
  · intro h0
    simp [Sys.Wait, h0]
  · intro h0
    simp [Sys.Wait, h0]
  · simpa [Sys.init] using c1
  · simpa [Sys.init] using c2
  · simpa [Sys.init] using c3
  · simpa [Sys.init] using c4

/-- C3 amended, at the run `Forward`, one accepted connection, `Close`: the counter is
`1 + 0 - 0 - 1 = 0` with one accept loop and one relay still running, and `Wait`
returns. -/
theorem wait_gate_counts_accept_loops_witness :
    Sys.run Sys.init [.engineStart, .accept, .close]
      = .ok { wg := 0, loops := 1, relays := 1, closes := 1, waitReturned := false } ∧
    Sys.Wait { wg := 0, loops := 1, relays := 1, closes := 1, waitReturned := false }
      = .ok { wg := 0, loops := 1, relays := 1, closes := 1, waitReturned := true } ∧
    (0 : Int) = ((1 : Nat) : Int) + ((0 : Nat) : Int) - ((0 : Nat) : Int) - ((1 : Nat) : Int) :=
  have key := wait_gate_counts_accept_loops [.engineStart, .accept, .close]
    { wg := 0, loops := 1, relays := 1, closes := 1, waitReturned := false } rfl
  ⟨rfl, key.1 rfl, key.2.2.1⟩

/-! ## C4 -/

/-- C4 on the code: when the dial of the other endpoint fails, the relay task of
`Forward` closes the accepted connection, and the relay task of `Reverse` returns without
closing it; neither touches a listener or another relay. -/
theorem relay_dial_failure_closes_only_in_forward (addr : String) (e : Err) (c : Handle)
    (accepted : Conn) (w : EngineWorld) :
    forwardRelay (some c) addr (.error e) accepted w
      = { w with dialed := w.dialed ++ [addr], closedConns := w.closedConns ++ [accepted] } ∧
    reverseRelay addr (.error e) accepted w = { w with dialed := w.dialed ++ [addr] } ∧
    (reverseRelay addr (.error e) accepted w).closedConns = w.closedConns :=
  ⟨rfl, rfl, rfl⟩

/-! ## C5 -/

/-- C5 as stated fails: once the `remote -> local` copy has ended, `handleClient` returns
although the `local -> remote` copy has not ended. -/
theorem handleClient_returns_after_one_direction :
    ∃ s, HC.run 5 9 HC.init [.remoteToLocalEnds, .ret] = some s ∧
      s.returned = true ∧ s.localToRemoteDone = false :=
  ⟨_, rfl, rfl, rfl⟩

/-- C5 amended: in every run of `handleClient`, it has returned only after one of the two
copy directions has ended or its caller's context has been cancelled, and by then it has
closed both connections. -/
theorem handleClient_returns_after_first_end (loc remote : Conn) (ops : List HCOp) (s : HC)
    (hrun : HC.run loc remote HC.init ops = some s) (hret : s.returned = true) :
    (s.remoteToLocalDone = true ∨ s.localToRemoteDone = true ∨ s.parentCancelled = true) ∧
    s.closed = [remote, loc] := by
  obtain ⟨i1, i2, _⟩ := hc_run_inv loc remote ops HC.init s (hc_init_inv loc remote) hrun
  exact ⟨i1 (i2 hret).1, (i2 hret).2⟩

/-- C5 amended, at the run in which the `local -> remote` copy ends and `handleClient`
returns. -/
theorem handleClient_returns_after_first_end_witness :
    HC.run 5 9 HC.init [.localToRemoteEnds, .ret]
      = some { remoteToLocalDone := false, localToRemoteDone := true, parentCancelled := false,
               ctxDone := true, returned := true, closed := [9, 5] } ∧
    ((false = true ∨ true = true ∨ false = true) ∧ [9, 5] = [9, 5]) :=
  ⟨rfl, handleClient_returns_after_first_end 5 9 [.localToRemoteEnds, .ret]
    { remoteToLocalDone := false, localToRemoteDone := true, parentCancelled := false,
      ctxDone := true, returned := true, closed := [9, 5] } rfl rfl⟩

/-! ## C6 -/

/-- C6 as stated fails: with the transport absent, the relay task of `Forward` closes the
accepted connection `5` and dials nothing, although a dial would give connection `9`. -/
theorem forwardRelay_absent_transport_drops :
    (forwardRelay none "svc:80" (.ok 9) 5 EngineWorld.init).closedConns = [5] ∧
    (forwardRelay none "svc:80" (.ok 9) 5 EngineWorld.init).dialed = [] :=
  ⟨rfl, rfl⟩

/-- C6 amended: for every local connection whose relay task finds the transport absent,
the task closes the connection and returns without dialling `remoteAddr`; nothing else
changes. -/
theorem forwardRelay_absent_transport (remoteAddr : String) (dial : Except Err Conn)
    (loc : Conn) (w : EngineWorld) :
    forwardRelay none remoteAddr dial loc w
      = { w with closedConns := w.closedConns ++ [loc] } :=
  rfl

/-! ## C7 -/

/-- C7 on the code: in `Forward` and in `Reverse`, when the first listener `1` is closed
after an accept error, rebuilt as listener `2`, and the loop then exits on cancellation,
the deferred close is applied to listener `1` again and listener `2` stays open. -/
theorem rebuilt_listener_left_open :
    (∃ w, Forward envRebuildThenCancel 3 (.ok 1) EngineWorld.init = .ok (.done w) ∧
      w.openedListeners = [1, 2] ∧ w.closedListeners = [1, 1] ∧ w.leakedListeners = [2]) ∧
    (∃ w, Reverse envRebuildThenCancel 3 (.ok 1) EngineWorld.init = .ok (.done w) ∧
      w.openedListeners = [1, 2] ∧ w.closedListeners = [1, 1] ∧ w.leakedListeners = [2]) :=
  ⟨⟨_, rfl, rfl, rfl, by decide⟩, ⟨_, rfl, rfl, rfl, by decide⟩⟩

/-! ## C10 -/

/-- C10 on the code: `Close` right after `NewTunnel` drives the counter below zero and
panics, and so does `Close` after `Reverse`, the exit of its accept loop and the return
of `Wait`. -/
theorem close_panics_on_zero_counter :
    Sys.init.wg = 0 ∧
    Sys.run Sys.init [.close] = .crash "sync: negative WaitGroup counter" ∧
    Sys.run Sys.init [.engineStart, .loopExit, .waitReturn, .close]
      = .crash "sync: negative WaitGroup counter" :=
  ⟨rfl, rfl, rfl⟩

/-! ## C8 -/

/-- C8: for a fixed environment (HOME, USER), applying `SetDefaults` twice gives the same
config as applying it once. -/
theorem SetDefaults_idempotent (os : OsEnv) (c : SshConfig) :
    (c.SetDefaults os).SetDefaults os = c.SetDefaults os := by
  rcases c with ⟨hn, u, idf⟩
  by_cases h1 : idf = "" <;> by_cases h2 : stringsContains hn ":" = true <;>
    by_cases h3 : u = "" <;>
    simp [SshConfig.SetDefaults, h1, h2, h3, append_idrsa_ne_empty, contains_colon_append22]

end SshTunnelModel
